import Mathlib

/-! Verification of the iSCSI target-topology consistency engine
    (`src/middlewared/middlewared/plugins/iscsi.py`).

    Each namespace below is a shallow embedding of one slice of the source:
    pure Lean functions mirror the Python functions, the relational datastore
    is modelled as explicit lists of rows, randomness and the live-session
    table are explicit parameters, and raised exceptions become `Except`
    results. -/

namespace Iscsi

/-! ### LUN allocation

    `iSCSITargetToExtentService.validate`, lines 1481-1493.  `lunids` is the
    result of `self.query([('target', '=', target)], {'order_by': ['lunid']})`:
    the LUN numbers already used by the target, in ascending order (pairwise
    distinct, because `validate` rejects a duplicate LUN for the same target
    before any row is inserted — hence the `Sorted (· < ·)` hypothesis below).

    Python:
        diff = sorted(set(range(0, lunids[-1] + 1)).difference(lunids))
        lunid = diff[0] if diff else max(lunids) + 1
    `lunids[-1]` is `pyLast`, the set difference of the ascending `range`
    is the (already sorted) filter, and `max(lunids)` is a fold. -/

def pyLast : List Nat → Nat
  | [] => 0
  | [x] => x
  | _ :: y :: ys => pyLast (y :: ys)

def lun_diff (lunids : List Nat) (last : Nat) : List Nat :=
  (List.range (last + 1)).filter (fun n => decide (n ∉ lunids))

def allocate_lunid (lunids : List Nat) : Nat :=
  match lunids with
  | [] => 0
  | x :: xs =>
    match lun_diff (x :: xs) (pyLast (x :: xs)) with
    | [] => (x :: xs).foldl max 0 + 1
    | d :: _ => d

theorem seed_le_foldl_max : ∀ (xs : List Nat) (x : Nat), x ≤ xs.foldl max x
  | [], _ => Nat.le_refl _
  | y :: ys, x =>
    Nat.le_trans (Nat.le_max_left x y) (seed_le_foldl_max ys (max x y))

theorem mem_le_foldl_max : ∀ (xs : List Nat) (x a : Nat), a ∈ xs → a ≤ xs.foldl max x
  | [], _, _, h => absurd h (List.not_mem_nil _)
  | y :: ys, x, a, h => by
    simp only [List.foldl_cons]
    rcases List.mem_cons.mp h with h1 | h1
    · rw [h1]
      exact Nat.le_trans (Nat.le_max_right x y) (seed_le_foldl_max ys (max x y))
    · exact mem_le_foldl_max ys (max x y) a h1

theorem foldl_max_mem : ∀ (xs : List Nat) (x : Nat), xs.foldl max x ∈ x :: xs
  | [], x => List.mem_singleton.mpr rfl
  | y :: ys, x => by
    have h := foldl_max_mem ys (max x y)
    simp only [List.foldl_cons]
    rcases List.mem_cons.mp h with h1 | h1
    · rcases max_choice x y with hm | hm
      · exact List.mem_cons.mpr (Or.inl (h1.trans hm))
      · exact List.mem_cons.mpr (Or.inr (List.mem_cons.mpr (Or.inl (h1.trans hm))))
    · exact List.mem_cons.mpr (Or.inr (List.mem_cons.mpr (Or.inr h1)))

theorem pyLast_mem : ∀ (xs : List Nat) (x : Nat), pyLast (x :: xs) ∈ x :: xs
  | [], x => by simp [pyLast]
  | y :: ys, x => by
    rw [show pyLast (x :: y :: ys) = pyLast (y :: ys) from rfl]
    exact List.mem_cons.mpr (Or.inr (pyLast_mem ys y))

theorem le_pyLast_of_sorted :
    ∀ (xs : List Nat) (x a : Nat), (x :: xs).Sorted (· < ·) → a ∈ x :: xs →
      a ≤ pyLast (x :: xs)
  | [], x, a, _, h => by
    rcases List.mem_singleton.mp h with rfl
    simp [pyLast]
  | y :: ys, x, a, hs, h => by
    rw [show pyLast (x :: y :: ys) = pyLast (y :: ys) from rfl]
    rcases List.mem_cons.mp h with h1 | h1
    · have hlt : x < pyLast (y :: ys) :=
        (List.rel_of_sorted_cons hs) _ (pyLast_mem ys y)
      exact h1 ▸ Nat.le_of_lt hlt
    · exact le_pyLast_of_sorted ys y a hs.of_cons h1

theorem allocate_lunid_mex (l : List Nat) (hs : l.Sorted (· < ·)) :
    allocate_lunid l ∉ l ∧ ∀ k, k < allocate_lunid l → k ∈ l := by
  match l with
  | [] =>
    refine ⟨by simp [allocate_lunid], fun k hk => ?_⟩
    simp [allocate_lunid] at hk
  | x :: xs =>
    cases hdiff : lun_diff (x :: xs) (pyLast (x :: xs)) with
    | nil =>
      have halloc : allocate_lunid (x :: xs) = (x :: xs).foldl max 0 + 1 := by
        simp [allocate_lunid, hdiff]
      have hall : ∀ n, n < pyLast (x :: xs) + 1 → n ∈ x :: xs := by
        intro n hn
        by_contra hnot
        have hmem : n ∈ lun_diff (x :: xs) (pyLast (x :: xs)) := by
          rw [lun_diff, List.mem_filter]
          exact ⟨List.mem_range.mpr hn, by simpa using hnot⟩
        rw [hdiff] at hmem
        exact absurd hmem (List.not_mem_nil n)
      have hub : ∀ a ∈ x :: xs, a ≤ (x :: xs).foldl max 0 := by
        intro a ha
        simp only [List.foldl_cons, Nat.zero_max]
        rcases List.mem_cons.mp ha with h1 | h1
        · exact h1 ▸ seed_le_foldl_max xs x
        · exact mem_le_foldl_max xs x a h1
      have hm_mem : (x :: xs).foldl max 0 ∈ x :: xs := by
        simpa only [List.foldl_cons, Nat.zero_max] using foldl_max_mem xs x
      have hm_le : (x :: xs).foldl max 0 ≤ pyLast (x :: xs) :=
        le_pyLast_of_sorted xs x _ hs hm_mem
      constructor
      · rw [halloc]
        intro hmem
        exact absurd (hub _ hmem) (by omega)
      · intro k hk
        rw [halloc] at hk
        exact hall k (by omega)
    | cons d rest =>
      have halloc : allocate_lunid (x :: xs) = d := by
        simp [allocate_lunid, hdiff]
      have hd : d ∈ lun_diff (x :: xs) (pyLast (x :: xs)) := by
        rw [hdiff]; exact List.mem_cons_self d rest
      rw [lun_diff, List.mem_filter] at hd
      have hd_range : d < pyLast (x :: xs) + 1 := List.mem_range.mp hd.1
      have hd_not : d ∉ x :: xs := by simpa using hd.2
      have hpw : (lun_diff (x :: xs) (pyLast (x :: xs))).Pairwise (· < ·) :=
        List.Pairwise.sublist (List.filter_sublist _) (List.pairwise_lt_range _)
      rw [hdiff] at hpw
      constructor
      · rw [halloc]; exact hd_not
      · intro k hk
        rw [halloc] at hk
        by_contra hnot
        have hmem : k ∈ lun_diff (x :: xs) (pyLast (x :: xs)) := by
          rw [lun_diff, List.mem_filter]
          exact ⟨List.mem_range.mpr (by omega), by simpa using hnot⟩
        rw [hdiff] at hmem
        rcases List.mem_cons.mp hmem with h1 | h1
        · omega
        · exact absurd (List.rel_of_pairwise_cons hpw h1) (by omega)

/-- C1: on an Association create with no LUN supplied, the LUN allocated by
    `iSCSITargetToExtentService.validate` is the smallest non-negative integer
    not already used by the target — in particular, used set {0, 1, 3} yields 2
    and used set {0, 1, 2} yields 3. -/
theorem c1_lun_allocation (l : List Nat) (hs : l.Sorted (· < ·)) :
    (allocate_lunid l ∉ l ∧ ∀ k, k < allocate_lunid l → k ∈ l) ∧
    allocate_lunid [0, 1, 3] = 2 ∧ allocate_lunid [0, 1, 2] = 3 :=
  ⟨allocate_lunid_mex l hs, by decide, by decide⟩

/-- Witness for C1 at the concrete used-LUN list `[0, 1, 3]`. -/
theorem c1_lun_allocation_witness :
    ((allocate_lunid [0, 1, 3] ∉ ([0, 1, 3] : List Nat) ∧
      ∀ k, k < allocate_lunid [0, 1, 3] → k ∈ ([0, 1, 3] : List Nat)) ∧
     allocate_lunid [0, 1, 3] = 2 ∧ allocate_lunid [0, 1, 2] = 3) :=
  c1_lun_allocation [0, 1, 3] (by decide)

/-! ### Child-collection reconciliation

    `ISCSIPortalService.__save_listen` (lines 196-224) and
    `iSCSITargetService.__save_groups` (lines 1124-1162).  Both compute
    `new_set - old_set` (children to insert) and `old_set - new_set`
    (children to delete) as Python set differences of fully-comparable
    tuples; we record the datastore operations each function issues, in
    source order, as a trace.  `__save_listen` runs its insert loop first
    and its delete loop second; `__save_groups` runs its delete loop first
    and its insert loop second.  Python set iteration order within one loop
    is unspecified; the model fixes one enumeration (first occurrences, in
    list order), which is irrelevant to the claims, since they only concern
    the relative order of the two loops. -/

structure ListenEntry where
  ip : String
  port : Nat
  deriving DecidableEq

structure PortalIPRow where
  rowId : Nat
  portal : Nat
  ip : String
  port : Nat
  deriving DecidableEq

structure GroupEntry where
  portal : Nat
  initiator : Option Nat
  authmethod : String
  auth : Option Nat
  deriving DecidableEq

structure TargetGroupRow where
  rowId : Nat
  target : Nat
  portal : Nat
  initiator : Option Nat
  authtype : String
  authgroup : Option Nat
  deriving DecidableEq

/-- A datastore operation on a child-collection table: inserting a child row
    tagged with the parent id, or deleting an existing child row by row id. -/
inductive ReconOp (α : Type) where
  | insertChild (parent : Nat) (child : α)
  | deleteChild (rowId : Nat)
  deriving DecidableEq

def ReconOp.isDelete : ReconOp α → Bool
  | .deleteChild _ => true
  | .insertChild _ _ => false

def ReconOp.isInsert : ReconOp α → Bool
  | .insertChild _ _ => true
  | .deleteChild _ => false

/-- Python `set(new) - set(old)` enumerated as a list. -/
def setDiff [DecidableEq α] (a b : List α) : List α :=
  (a.filter (fun x => decide (x ∉ b))).dedup

/-- The `datastore.query` on `services.iscsitargetportalip` filtered by
    `(portal, ip, port)`; `__save_listen` deletes row `portalip[0]['id']`
    when the query result is non-empty. -/
def lookupListenRow (db : List PortalIPRow) (pk : Nat) (e : ListenEntry) :
    Option PortalIPRow :=
  db.find? (fun r => r.portal == pk && r.ip == e.ip && r.port == e.port)

/-- Trace of `ISCSIPortalService.__save_listen(pk, new, old)`: the insert
    loop over `new_listen_set - old_listen_set` runs first, then the delete
    loop over `old_listen_set - new_listen_set`. -/
def save_listen_ops (db : List PortalIPRow) (pk : Nat)
    (new old : List ListenEntry) : List (ReconOp ListenEntry) :=
  ((setDiff new old).map (fun e => ReconOp.insertChild pk e)) ++
    ((setDiff old new).filterMap
      (fun e => (lookupListenRow db pk e).map (fun r => ReconOp.deleteChild r.rowId)))

/-- The `datastore.query` on `services.iscsitargetgroups` filtered by all
    group fields plus the parent target id. -/
def lookupGroupRow (db : List TargetGroupRow) (pk : Nat) (g : GroupEntry) :
    Option TargetGroupRow :=
  db.find? (fun r =>
    r.target == pk && r.portal == g.portal && r.initiator == g.initiator &&
      r.authtype == g.authmethod && r.authgroup == g.auth)

/-- Trace of `iSCSITargetService.__save_groups(pk, new, old)`: the delete
    loop over `old_set - new_set` runs first, then the insert loop over
    `new_set - old_set`. -/
def save_groups_ops (db : List TargetGroupRow) (pk : Nat)
    (new old : List GroupEntry) : List (ReconOp GroupEntry) :=
  ((setDiff old new).filterMap
      (fun g => (lookupGroupRow db pk g).map (fun r => ReconOp.deleteChild r.rowId))) ++
    ((setDiff new old).map (fun g => ReconOp.insertChild pk g))

/-- Every delete in the trace is issued before every insert. -/
def deletesBeforeInserts (t : List (ReconOp α)) : Prop :=
  ∀ i j : Fin t.length, (t.get i).isDelete = true → (t.get j).isInsert = true →
    (i : Nat) < (j : Nat)

/-- Every insert in the trace is issued before every delete. -/
def insertsBeforeDeletes (t : List (ReconOp α)) : Prop :=
  ∀ i j : Fin t.length, (t.get i).isInsert = true → (t.get j).isDelete = true →
    (i : Nat) < (j : Nat)

instance (t : List (ReconOp α)) [DecidableEq α] : Decidable (deletesBeforeInserts t) := by
  unfold deletesBeforeInserts; infer_instance

instance (t : List (ReconOp α)) [DecidableEq α] : Decidable (insertsBeforeDeletes t) := by
  unfold insertsBeforeDeletes; infer_instance

theorem phase_order_of_append (A B : List (ReconOp α))
    (hA : ∀ a ∈ A, a.isInsert = false) (hB : ∀ b ∈ B, b.isDelete = false) :
    deletesBeforeInserts (A ++ B) := by
  intro i j hdel hins
  have hjlen : (j : Nat) < A.length + B.length := by
    simpa [List.length_append] using j.isLt
  have hilen : (i : Nat) < A.length + B.length := by
    simpa [List.length_append] using i.isLt
  have hj : A.length ≤ (j : Nat) := by
    by_contra hlt
    have hmem : (A ++ B).get j ∈ A := by
      rw [List.get_append _ (by omega)]
      exact List.get_mem _ _ _
    rw [hA _ hmem] at hins
    exact absurd hins (by simp)
  have hi : (i : Nat) < A.length := by
    by_contra hge
    have hmem : (A ++ B).get i ∈ B := by
      rw [List.get_eq_getElem, List.getElem_append_right (by omega)]
      exact List.getElem_mem _
    rw [hB _ hmem] at hdel
    exact absurd hdel (by simp)
  omega

theorem phase_order_of_append' (A B : List (ReconOp α))
    (hA : ∀ a ∈ A, a.isDelete = false) (hB : ∀ b ∈ B, b.isInsert = false) :
    insertsBeforeDeletes (A ++ B) := by
  intro i j hins hdel
  have hjlen : (j : Nat) < A.length + B.length := by
    simpa [List.length_append] using j.isLt
  have hilen : (i : Nat) < A.length + B.length := by
    simpa [List.length_append] using i.isLt
  have hj : A.length ≤ (j : Nat) := by
    by_contra hlt
    have hmem : (A ++ B).get j ∈ A := by
      rw [List.get_append _ (by omega)]
      exact List.get_mem _ _ _
    rw [hA _ hmem] at hdel
    exact absurd hdel (by simp)
  have hi : (i : Nat) < A.length := by
    by_contra hge
    have hmem : (A ++ B).get i ∈ B := by
      rw [List.get_eq_getElem, List.getElem_append_right (by omega)]
      exact List.getElem_mem _
    rw [hB _ hmem] at hins
    exact absurd hins (by simp)
  omega

/-- C2 counterexample: replacing the single listen pair `10.0.0.1:3260` of
    portal 1 with `10.0.0.2:3260` makes `__save_listen` issue the insert
    before the delete, so the claimed deletes-first ordering fails for the
    Portal parent type. -/
theorem c2_counterexample :
    ¬ deletesBeforeInserts
        (save_listen_ops [⟨7, 1, "10.0.0.1", 3260⟩] 1
          [⟨"10.0.0.2", 3260⟩] [⟨"10.0.0.1", 3260⟩]) := by
  decide

/-- C2 (amended): both reconcilers compute the children to insert as
    `new - old` and the children to delete as `old - new`, but
    `__save_groups` (Target↔Groups) applies deletes before inserts while
    `__save_listen` (Portal↔listen-pairs) applies inserts before deletes. -/
theorem c2_reconciliation_phase_order (db : List TargetGroupRow) (pk : Nat)
    (new old : List GroupEntry) (db' : List PortalIPRow) (pk' : Nat)
    (new' old' : List ListenEntry) :
    deletesBeforeInserts (save_groups_ops db pk new old) ∧
    insertsBeforeDeletes (save_listen_ops db' pk' new' old') := by
  constructor
  · apply phase_order_of_append
    · intro a ha
      rcases List.mem_filterMap.mp ha with ⟨g, _, hg⟩
      rcases Option.map_eq_some'.mp hg with ⟨r, _, rfl⟩
      rfl
    · intro b hb
      rcases List.mem_map.mp hb with ⟨g, _, rfl⟩
      rfl
  · apply phase_order_of_append'
    · intro a ha
      rcases List.mem_map.mp ha with ⟨g, _, rfl⟩
      rfl
    · intro b hb
      rcases List.mem_filterMap.mp hb with ⟨g, _, hg⟩
      rcases Option.map_eq_some'.mp hg with ⟨r, _, rfl⟩
      rfl

/-! ### Initiator store/read transformation

    `iSCSITargetAuthorizedInitiator.compress` (lines 992-1003) stores the
    `initiators` and `auth_network` lists as `'ALL'` when empty and as the
    newline-join otherwise; `extend` (lines 1005-1016) reads `'ALL'` back as
    `[]` and otherwise applies Python `str.split()` (split on runs of
    whitespace, dropping empty tokens).  Strings are modelled as `List Char`
    (Unicode code points, like Python `str`); `pyIsSpace` is Python's
    `str.isspace()` character set — the exact set `str.split()` splits on:
    U+0009-U+000D, U+001C-U+0020, U+0085, U+00A0, U+1680, U+2000-U+200A,
    U+2028, U+2029, U+202F, U+205F and U+3000. -/

abbrev PyStr := List Char

def pyIsSpace (c : Char) : Bool :=
  (0x09 ≤ c.toNat && c.toNat ≤ 0x0d) ||
  (0x1c ≤ c.toNat && c.toNat ≤ 0x20) ||
  c.toNat == 0x85 || c.toNat == 0xa0 || c.toNat == 0x1680 ||
  (0x2000 ≤ c.toNat && c.toNat ≤ 0x200a) ||
  c.toNat == 0x2028 || c.toNat == 0x2029 ||
  c.toNat == 0x202f || c.toNat == 0x205f || c.toNat == 0x3000

/-- Python `s.split()` with no separator argument. -/
def pySplitWs (s : PyStr) : List PyStr :=
  (s.splitOnP pyIsSpace).filter (fun t => decide (t ≠ []))

/-- Python `'\n'.join(l)`. -/
def pyJoinNl (l : List PyStr) : PyStr := List.intercalate ['\n'] l

namespace Initiator

def ALL : PyStr := ['A', 'L', 'L']

structure InitiatorData where
  initiators : List PyStr
  auth_network : List PyStr
  deriving DecidableEq

structure StoredInitiator where
  initiators : PyStr
  auth_network : PyStr
  deriving DecidableEq

def compressField (l : List PyStr) : PyStr :=
  if l.isEmpty then ALL else pyJoinNl l

def extendField (s : PyStr) : List PyStr :=
  if s = ALL then [] else pySplitWs s

def compress (d : InitiatorData) : StoredInitiator :=
  ⟨compressField d.initiators, compressField d.auth_network⟩

def extend (s : StoredInitiator) : InitiatorData :=
  ⟨extendField s.initiators, extendField s.auth_network⟩

/-- A field value that stores and reads back unchanged: every entry is a
    non-empty whitespace-free string and the list is not literally
    `['ALL']`. -/
def goodField (l : List PyStr) : Prop :=
  (∀ s ∈ l, s ≠ [] ∧ ∀ c ∈ s, pyIsSpace c = false) ∧ l ≠ [ALL]

instance (l : List PyStr) : Decidable (goodField l) := by
  unfold goodField
  infer_instance

end Initiator

theorem splitOnP_wsfree_append (a r : PyStr) (ha : ∀ c ∈ a, pyIsSpace c = false) :
    (a ++ r).splitOnP pyIsSpace =
      (r.splitOnP pyIsSpace).modifyHead (fun h => a ++ h) := by
  induction a with
  | nil =>
    cases hr : r.splitOnP pyIsSpace <;> simp [List.modifyHead, hr]
  | cons c cs ih =>
    have hc : pyIsSpace c = false := ha c (List.mem_cons_self _ _)
    have hcs : ∀ x ∈ cs, pyIsSpace x = false :=
      fun x hx => ha x (List.mem_cons.mpr (Or.inr hx))
    rw [List.cons_append, List.splitOnP_cons, if_neg (by simp [hc]), ih hcs]
    cases hr : r.splitOnP pyIsSpace <;> simp [List.modifyHead]

theorem pySplitWs_join (l : List PyStr)
    (hgood : ∀ s ∈ l, s ≠ [] ∧ ∀ c ∈ s, pyIsSpace c = false) (hne : l ≠ []) :
    pySplitWs (pyJoinNl l) = l := by
  induction l with
  | nil => cases hne rfl
  | cons x xs ih =>
    have hx := hgood x (List.mem_cons_self _ _)
    have hxs : ∀ s ∈ xs, s ≠ [] ∧ ∀ c ∈ s, pyIsSpace c = false :=
      fun s hs => hgood s (List.mem_cons.mpr (Or.inr hs))
    cases xs with
    | nil =>
      have hjoin : pyJoinNl [x] = x := by
        simp [pyJoinNl, List.intercalate]
      rw [hjoin, pySplitWs]
      rw [show x = x ++ [] from (List.append_nil x).symm]
      rw [splitOnP_wsfree_append x [] hx.2, List.splitOnP_nil]
      simp [List.modifyHead, hx.1]
    | cons y ys =>
      have hstep : pyJoinNl (x :: y :: ys) = x ++ '\n' :: pyJoinNl (y :: ys) := by
        simp [pyJoinNl, List.intercalate, List.intersperse_cons_cons]
      rw [hstep, pySplitWs, splitOnP_wsfree_append x _ hx.2, List.splitOnP_cons,
        if_pos (by decide)]
      simp only [List.modifyHead, List.append_nil]
      rw [List.filter_cons, if_pos (by simpa using hx.1)]
      have := ih hxs (by simp)
      rw [pySplitWs] at this
      rw [this]

theorem pyJoinNl_ne_ALL (l : List PyStr)
    (hgood : ∀ s ∈ l, s ≠ [] ∧ ∀ c ∈ s, pyIsSpace c = false) (hne : l ≠ [])
    (hnotall : l ≠ [Initiator.ALL]) : pyJoinNl l ≠ Initiator.ALL := by
  cases l with
  | nil => cases hne rfl
  | cons x xs =>
    cases xs with
    | nil =>
      have hjoin : pyJoinNl [x] = x := by simp [pyJoinNl, List.intercalate]
      rw [hjoin]
      intro hx
      exact hnotall (by rw [hx])
    | cons y ys =>
      have hstep : pyJoinNl (x :: y :: ys) = x ++ '\n' :: pyJoinNl (y :: ys) := by
        simp [pyJoinNl, List.intercalate, List.intersperse_cons_cons]
      intro hall
      have hmem : '\n' ∈ pyJoinNl (x :: y :: ys) := by
        rw [hstep]
        exact List.mem_append.mpr (Or.inr (List.mem_cons_self _ _))
      rw [hall] at hmem
      simp [Initiator.ALL] at hmem

theorem extendField_compressField (l : List PyStr) (h : Initiator.goodField l) :
    Initiator.extendField (Initiator.compressField l) = l := by
  rcases h with ⟨hgood, hnotall⟩
  by_cases hl : l = []
  · subst hl
    simp [Initiator.compressField, Initiator.extendField]
  · rw [Initiator.compressField, if_neg (by simpa using hl), Initiator.extendField,
      if_neg (pyJoinNl_ne_ALL l hgood hl hnotall)]
    exact pySplitWs_join l hgood hl

/-- C10: `extend ∘ compress` is the identity exactly on restricted inputs:
    any record whose `initiators` and `auth_network` are lists of non-empty
    strings free of Python whitespace (`str.isspace()` characters) and other
    than the literal `['ALL']` round-trips (in particular two empty lists
    round-trip through the stored sentinel `'ALL'`), while `['ALL']` itself
    and names containing whitespace — an ASCII space or a separator such as
    `'\x1c'` alike — read back differently. -/
theorem c10_initiator_roundtrip (d : Initiator.InitiatorData)
    (h1 : Initiator.goodField d.initiators)
    (h2 : Initiator.goodField d.auth_network) :
    Initiator.extend (Initiator.compress d) = d ∧
    Initiator.extend (Initiator.compress ⟨[], []⟩) = ⟨[], []⟩ ∧
    (Initiator.compress ⟨[], []⟩).initiators = Initiator.ALL ∧
    (Initiator.compress ⟨[], []⟩).auth_network = Initiator.ALL ∧
    Initiator.extend (Initiator.compress ⟨[Initiator.ALL], []⟩) ≠
      ⟨[Initiator.ALL], []⟩ ∧
    Initiator.extend (Initiator.compress ⟨[['a', ' ', 'b']], []⟩) ≠
      ⟨[['a', ' ', 'b']], []⟩ ∧
    Initiator.extend (Initiator.compress ⟨[['a', '\x1c', 'b']], []⟩) ≠
      ⟨[['a', '\x1c', 'b']], []⟩ := by
  refine ⟨?_, by decide, by decide, by decide, by decide, by decide, by decide⟩
  rcases d with ⟨ini, an⟩
  simp only [Initiator.compress, Initiator.extend]
  rw [extendField_compressField _ h1, extendField_compressField _ h2]

/-- Witness for C10 at a concrete one-entry record. -/
theorem c10_initiator_roundtrip_witness :
    (Initiator.extend (Initiator.compress ⟨[['i', 'q', 'n', '1']], [['1', '/', '8']]⟩) =
        (⟨[['i', 'q', 'n', '1']], [['1', '/', '8']]⟩ : Initiator.InitiatorData) ∧
      Initiator.extend (Initiator.compress ⟨[], []⟩) = ⟨[], []⟩ ∧
      (Initiator.compress ⟨[], []⟩).initiators = Initiator.ALL ∧
      (Initiator.compress ⟨[], []⟩).auth_network = Initiator.ALL ∧
      Initiator.extend (Initiator.compress ⟨[Initiator.ALL], []⟩) ≠
        ⟨[Initiator.ALL], []⟩ ∧
      Initiator.extend (Initiator.compress ⟨[['a', ' ', 'b']], []⟩) ≠
        ⟨[['a', ' ', 'b']], []⟩ ∧
      Initiator.extend (Initiator.compress ⟨[['a', '\x1c', 'b']], []⟩) ≠
        ⟨[['a', '\x1c', 'b']], []⟩) :=
  c10_initiator_roundtrip ⟨[['i', 'q', 'n', '1']], [['1', '/', '8']]⟩
    (by decide) (by decide)

/-! ### Rollback of a failed create

    `ISCSIPortalService.do_create` (lines 182-190) and
    `iSCSITargetService.do_create` (lines 1111-1118): the primary row is
    inserted, then the child-collection save runs; if it raises, the primary
    row is deleted again and the exception is re-raised.  The primary table
    is modelled by its list of row ids (a fresh id is appended by
    `datastore.insert`), and the child-collection save by its `Except`
    outcome. -/

def portal_create_rollback (portalRows : List Nat) (pk : Nat)
    (reconcile : Except Unit Unit) : List Nat × Except Unit Nat :=
  let rows1 := portalRows ++ [pk]
  match reconcile with
  | Except.ok _ => (rows1, Except.ok pk)
  | Except.error e => (rows1.filter (fun r => r != pk), Except.error e)

def target_create_rollback (targetRows : List Nat) (pk : Nat)
    (reconcile : Except Unit Unit) : List Nat × Except Unit Nat :=
  let rows1 := targetRows ++ [pk]
  match reconcile with
  | Except.ok _ => (rows1, Except.ok pk)
  | Except.error e => (rows1.filter (fun r => r != pk), Except.error e)

theorem filter_ne_append_singleton (rows : List Nat) (pk : Nat) (h : pk ∉ rows) :
    (rows ++ [pk]).filter (fun r => r != pk) = rows := by
  rw [List.filter_append]
  have h1 : rows.filter (fun r => r != pk) = rows :=
    List.filter_eq_self.mpr (fun a ha => by
      simp only [bne_iff_ne, ne_eq]
      exact fun he => h (he ▸ ha))
  have h2 : [pk].filter (fun r => r != pk) = [] := by simp
  rw [h1, h2, List.append_nil]

/-- C6: on a Portal create and on a Target create, if the primary-row insert
    succeeds but the child-collection reconciliation raises, the fresh
    primary row is deleted again and the error is re-raised, so the primary
    table is exactly as before the call. -/
theorem c6_create_rollback (rowsP rowsT : List Nat) (pk pk' : Nat)
    (rec rec' : Except Unit Unit) (hP : pk ∉ rowsP) (hT : pk' ∉ rowsT)
    (hfail : rec = Except.error ()) (hfail' : rec' = Except.error ()) :
    (portal_create_rollback rowsP pk rec).1 = rowsP ∧
    (portal_create_rollback rowsP pk rec).2 = Except.error () ∧
    (target_create_rollback rowsT pk' rec').1 = rowsT ∧
    (target_create_rollback rowsT pk' rec').2 = Except.error () := by
  subst hfail hfail'
  refine ⟨?_, rfl, ?_, rfl⟩
  · exact filter_ne_append_singleton rowsP pk hP
  · exact filter_ne_append_singleton rowsT pk' hT

/-- Witness for C6 at concrete tables `[1, 2]` with fresh id 3. -/
theorem c6_create_rollback_witness :
    ((portal_create_rollback [1, 2] 3 (Except.error ())).1 = [1, 2] ∧
     (portal_create_rollback [1, 2] 3 (Except.error ())).2 = Except.error () ∧
     (target_create_rollback [4] 5 (Except.error ())).1 = [4] ∧
     (target_create_rollback [4] 5 (Except.error ())).2 = Except.error ()) :=
  c6_create_rollback [1, 2] [4] 3 5 _ _ (by decide) (by decide) rfl rfl

/-! ### Portal tag allocation and renumbering

    `ISCSIPortalService.do_create` (lines 174-177): the new portal's tag is
    the current row count plus one.  `ISCSIPortalService.do_delete` (lines
    277-281): after the row is removed, the remaining portals are re-queried
    ordered by tag and each is re-tagged `i + 1` in enumeration order.
    `datastore.insert` hands out a fresh primary key, modelled by the
    `nextId` counter; the row list is kept in the renumbering order (which,
    from an empty table, coincides with insertion order, since a create
    always appends the largest tag). -/

structure Portal where
  id : Nat
  tag : Nat
  deriving DecidableEq

inductive PortalOp where
  | create
  | delete (id : Nat)

structure PortalSt where
  db : List Portal
  nextId : Nat

def portalByTag (a b : Portal) : Prop := a.tag ≤ b.tag

instance : DecidableRel portalByTag := fun a b => Nat.decLe a.tag b.tag

/-- The `for i, portal in enumerate(query order_by tag): update tag := i+1`
    loop, with `n` the next tag to hand out. -/
def renumberFrom : Nat → List Portal → List Portal
  | _, [] => []
  | n, p :: ps => {p with tag := n} :: renumberFrom (n + 1) ps

def portal_renumber (db : List Portal) : List Portal :=
  renumberFrom 1 (db.insertionSort portalByTag)

def portal_do_create (s : PortalSt) : PortalSt :=
  ⟨s.db ++ [⟨s.nextId, s.db.length + 1⟩], s.nextId + 1⟩

def portal_do_delete (s : PortalSt) (i : Nat) : PortalSt :=
  ⟨portal_renumber (s.db.filter (fun p => p.id != i)), s.nextId⟩

def portalStep (s : PortalSt) : PortalOp → PortalSt
  | .create => portal_do_create s
  | .delete i => portal_do_delete s i

def runPortalOps (ops : List PortalOp) : PortalSt :=
  ops.foldl portalStep ⟨[], 1⟩

/-- Tags are exactly the dense ascending sequence `1..N`. -/
def denseTags (db : List Portal) : Prop :=
  db.map Portal.tag = List.range' 1 db.length

theorem renumberFrom_map_tag :
    ∀ (l : List Portal) (n : Nat),
      (renumberFrom n l).map Portal.tag = List.range' n l.length
  | [], _ => rfl
  | p :: ps, n => by
    simp only [renumberFrom, List.map_cons, List.length_cons, List.range'_succ]
    rw [renumberFrom_map_tag ps (n + 1)]

theorem renumberFrom_map_id :
    ∀ (l : List Portal) (n : Nat),
      (renumberFrom n l).map Portal.id = l.map Portal.id
  | [], _ => rfl
  | p :: ps, n => by
    simp only [renumberFrom, List.map_cons]
    rw [renumberFrom_map_id ps (n + 1)]

theorem renumberFrom_length :
    ∀ (l : List Portal) (n : Nat), (renumberFrom n l).length = l.length
  | [], _ => rfl
  | p :: ps, n => by
    simp only [renumberFrom, List.length_cons]
    rw [renumberFrom_length ps (n + 1)]

theorem denseTags_portal_renumber (db : List Portal) :
    denseTags (portal_renumber db) := by
  rw [denseTags, portal_renumber, renumberFrom_map_tag, renumberFrom_length]

theorem denseTags_sorted (db : List Portal) (h : denseTags db) :
    db.Sorted portalByTag := by
  rw [denseTags] at h
  have hpw : (db.map Portal.tag).Pairwise (· < ·) := by
    rw [h]
    exact List.pairwise_lt_range' 1 db.length 1
  have := List.pairwise_map.mp hpw
  exact this.imp (fun hab => Nat.le_of_lt hab)

theorem denseTags_step (s : PortalSt) (h : denseTags s.db) (op : PortalOp) :
    denseTags (portalStep s op).db := by
  cases op with
  | create =>
    simp only [portalStep, portal_do_create, denseTags, List.map_append,
      List.length_append, List.map_cons, List.map_nil, List.length_cons,
      List.length_nil]
    rw [denseTags] at h
    rw [h]
    rw [show s.db.length + (0 + 1) = s.db.length + 1 from by omega]
    rw [List.range'_1_concat]
    simp [Nat.add_comm]
  | delete i =>
    exact denseTags_portal_renumber _

theorem denseTags_run_aux :
    ∀ (ops : List PortalOp) (s : PortalSt), denseTags s.db →
      denseTags (ops.foldl portalStep s).db
  | [], _, h => h
  | op :: rest, s, h => by
    rw [List.foldl_cons]
    exact denseTags_run_aux rest (portalStep s op) (denseTags_step s h op)

theorem denseTags_run (ops : List PortalOp) : denseTags (runPortalOps ops).db :=
  denseTags_run_aux ops ⟨[], 1⟩ rfl

theorem run_concat (ops : List PortalOp) (op : PortalOp) :
    runPortalOps (ops ++ [op]) = portalStep (runPortalOps ops) op := by
  rw [runPortalOps, List.foldl_append, List.foldl_cons, List.foldl_nil]
  rfl

/-- C5: starting from an empty portal table, after any deletion the
    remaining portals carry tags exactly `1..N` in the order of their
    pre-deletion tags (the surviving rows keep their relative order), and
    every create assigns the fresh row the tag `(row count) + 1`. -/
theorem c5_portal_tag_density (ops : List PortalOp) (i : Nat) :
    (runPortalOps (ops ++ [PortalOp.delete i])).db.map Portal.tag =
      List.range' 1 (runPortalOps (ops ++ [PortalOp.delete i])).db.length ∧
    (runPortalOps (ops ++ [PortalOp.delete i])).db.map Portal.id =
      ((runPortalOps ops).db.filter (fun p => p.id != i)).map Portal.id ∧
    (runPortalOps (ops ++ [PortalOp.create])).db =
      (runPortalOps ops).db ++
        [⟨(runPortalOps ops).nextId, (runPortalOps ops).db.length + 1⟩] := by
  refine ⟨denseTags_run (ops ++ [PortalOp.delete i]), ?_, ?_⟩
  · rw [run_concat]
    simp only [portalStep, portal_do_delete, portal_renumber]
    rw [renumberFrom_map_id]
    have hsorted : ((runPortalOps ops).db.filter (fun p => p.id != i)).Sorted
        portalByTag :=
      List.Pairwise.sublist (List.filter_sublist _)
        (denseTags_sorted _ (denseTags_run ops))
    rw [List.Sorted.insertionSort_eq hsorted]
  · rw [run_concat]
    rfl

/-! ### Extent serial allocation

    `iSCSITargetExtentService.extent_serial` (lines 802-819).  When no
    serial is supplied the loop draws `secrets.token_hex()[:15]` — the hex
    encoding of 32 fresh random bytes, truncated to 15 characters — up to 5
    times, returning the first draw not already present among the used
    serials and raising `CallError` when all 5 draws collide.  The
    randomness is an explicit stream of byte lists, one per draw; the
    function reads state but never writes it, so a failure leaves no
    partial state behind. -/

def hexDigitChar (n : Nat) : Char :=
  if n < 10 then Char.ofNat (48 + n) else Char.ofNat (87 + n)

/-- `secrets.token_hex(...)`: hex encoding of the given bytes, two lowercase
    hex digits per byte. -/
def token_hex : List Nat → List Char
  | [] => []
  | b :: bs => hexDigitChar (b / 16 % 16) :: hexDigitChar (b % 16) :: token_hex bs

/-- One candidate serial: `secrets.token_hex()[:15]`. -/
def gen_serial (bytes : List Nat) : List Char := (token_hex bytes).take 15

def serial_loop (used : List (List Char)) : List (List Nat) → Except Unit (List Char)
  | [] => Except.error ()
  | r :: rs =>
    if gen_serial r ∈ used then serial_loop used rs
    else Except.ok (gen_serial r)

def extent_serial (serial : Option (List Char)) (used : List (List Char))
    (randomness : List (List Nat)) : Except Unit (List Char) :=
  match serial with
  | some s => Except.ok s
  | none => serial_loop used (randomness.take 5)

def isHexChar (c : Char) : Bool :=
  ('0' ≤ c && c ≤ '9') || ('a' ≤ c && c ≤ 'f')

theorem serial_loop_eq_find (used : List (List Char)) :
    ∀ rs : List (List Nat),
      serial_loop used rs =
        (match (rs.map gen_serial).find? (fun c => decide (c ∉ used)) with
         | some c => Except.ok c
         | none => Except.error ())
  | [] => rfl
  | r :: rs => by
    by_cases hc : gen_serial r ∈ used
    · rw [serial_loop, if_pos hc, List.map_cons,
        List.find?_cons_of_neg _ (by simp [hc])]
      exact serial_loop_eq_find used rs
    · rw [serial_loop, if_neg hc, List.map_cons,
        List.find?_cons_of_pos _ (by simp [hc])]

theorem token_hex_length (bytes : List Nat) :
    (token_hex bytes).length = 2 * bytes.length := by
  induction bytes with
  | nil => rfl
  | cons b bs ih =>
    simp only [token_hex, List.length_cons, ih]
    omega

theorem hexDigitChar_isHex : ∀ n, n < 16 → isHexChar (hexDigitChar n) = true := by
  decide

theorem token_hex_hex (bytes : List Nat) :
    ∀ c ∈ token_hex bytes, isHexChar c = true := by
  induction bytes with
  | nil => intro c hc; cases hc
  | cons b bs ih =>
    intro c hc
    rcases List.mem_cons.mp hc with h1 | h1
    · rw [h1]
      exact hexDigitChar_isHex _ (Nat.mod_lt _ (by omega))
    · rcases List.mem_cons.mp h1 with h2 | h2
      · rw [h2]
        exact hexDigitChar_isHex _ (Nat.mod_lt _ (by omega))
      · exact ih c h2

theorem gen_serial_shape (bytes : List Nat) (h : bytes.length = 32) :
    (gen_serial bytes).length = 15 ∧ ∀ c ∈ gen_serial bytes, isHexChar c = true := by
  constructor
  · rw [gen_serial, List.length_take, token_hex_length, h]
    decide
  · intro c hc
    exact token_hex_hex bytes c (List.take_subset _ _ hc)

/-- C7: with no serial supplied, `extent_serial` draws at most 5 random
    15-character lowercase-hex candidates; it returns the first candidate
    not among the used serials, and raises the exhaustion `CallError` when
    all 5 candidates are already in use.  The function performs no write,
    so a failure leaves no partial state. -/
theorem c7_serial_allocation (used : List (List Char))
    (randomness : List (List Nat)) (h5 : randomness.length = 5)
    (h32 : ∀ r ∈ randomness, r.length = 32) :
    (∀ c ∈ randomness.map gen_serial,
        c.length = 15 ∧ ∀ ch ∈ c, isHexChar ch = true) ∧
    extent_serial none used randomness =
      (match (randomness.map gen_serial).find? (fun c => decide (c ∉ used)) with
       | some c => Except.ok c
       | none => Except.error ()) ∧
    ((∀ c ∈ randomness.map gen_serial, c ∈ used) →
      extent_serial none used randomness = Except.error ()) := by
  have htake : randomness.take 5 = randomness := by
    rw [← h5]
    exact List.take_length randomness
  have heq : extent_serial none used randomness =
      (match (randomness.map gen_serial).find? (fun c => decide (c ∉ used)) with
       | some c => Except.ok c
       | none => Except.error ()) := by
    rw [extent_serial, htake]
    exact serial_loop_eq_find used randomness
  refine ⟨?_, heq, ?_⟩
  · intro c hc
    rcases List.mem_map.mp hc with ⟨r, hr, rfl⟩
    exact gen_serial_shape r (h32 r hr)
  · intro hall
    rw [heq]
    have hnone : (randomness.map gen_serial).find?
        (fun c => decide (c ∉ used)) = none :=
      List.find?_eq_none.mpr (fun c hc => by simp [hall c hc])
    rw [hnone]

/-- Witness for C7: five zero-byte draws against an empty used-serial set
    allocate the first draw. -/
theorem c7_serial_allocation_witness :
    extent_serial none [] (List.replicate 5 (List.replicate 32 0)) =
      Except.ok (gen_serial (List.replicate 32 0)) := by
  have h := c7_serial_allocation [] (List.replicate 5 (List.replicate 32 0))
    (by decide) (by decide)
  rw [h.2.1]
  rfl

/-! ### AuthCredential usage guard

    `iSCSITargetAuthCredentialService.do_delete` (lines 407-420),
    `do_update` (lines 379-405, the tag-change guard) and
    `is_in_use_by_portals_targets` (lines 422-442).  Both mutators first ask
    whether any OTHER credential row carries the same tag
    (`self.query([['tag', '=', config['tag']], ['id', '!=', id]])`); only
    when none does is the usage query consulted, and only then can the
    in-use `CallError`/validation error fire.  `do_update`'s guard
    additionally requires the tag to actually change.  The secret-length
    checks of `validate` are independent of the guard and are elided. -/

structure AuthCred where
  id : Nat
  tag : Int
  deriving DecidableEq

structure AuthPortalRow where
  id : Nat
  discovery_authgroup : Option Int
  deriving DecidableEq

structure AuthTargetGroupRow where
  id : Nat
  authgroup : Option Int
  deriving DecidableEq

structure AuthDB where
  creds : List AuthCred
  portals : List AuthPortalRow
  groups : List AuthTargetGroupRow
  deriving DecidableEq

inductive AuthErr where
  | notFound
  | inUse
  deriving DecidableEq

def is_in_use_by_portals_targets (db : AuthDB) (tag : Int) : Bool :=
  !(db.portals.filter (fun p => p.discovery_authgroup == some tag)).isEmpty ||
  !(db.groups.filter (fun g => g.authgroup == some tag)).isEmpty

def auth_do_delete (db : AuthDB) (i : Nat) : Except AuthErr AuthDB :=
  match db.creds.find? (fun c => c.id == i) with
  | none => Except.error AuthErr.notFound
  | some config =>
    if (db.creds.filter (fun c => c.tag == config.tag && c.id != i)).isEmpty then
      if is_in_use_by_portals_targets db config.tag then
        Except.error AuthErr.inUse
      else
        Except.ok {db with creds := db.creds.filter (fun c => c.id != i)}
    else
      Except.ok {db with creds := db.creds.filter (fun c => c.id != i)}

def auth_do_update_tag (db : AuthDB) (i : Nat) (newTag : Int) : Except AuthErr AuthDB :=
  match db.creds.find? (fun c => c.id == i) with
  | none => Except.error AuthErr.notFound
  | some old =>
    if newTag != old.tag &&
        (db.creds.filter (fun c => c.tag == old.tag && c.id != i)).isEmpty &&
        is_in_use_by_portals_targets db old.tag then
      Except.error AuthErr.inUse
    else
      Except.ok {db with creds := db.creds.map (fun c => if c.id == i then {c with tag := newTag} else c)}

/-- Two credentials share tag 5, a portal references tag 5. -/
def authDbEx : AuthDB := ⟨[⟨1, 5⟩, ⟨2, 5⟩], [⟨1, some 5⟩], []⟩

/-- C8 counterexample: in `authDbEx`, tag 5 is still referenced by a portal,
    and ANOTHER credential shares tag 5, so the claim's reading ("blocked if
    referenced, unless no other credential shares that tag") predicts a
    block — yet `do_delete` succeeds, because the code skips the usage check
    precisely when another credential shares the tag. -/
theorem c8_counterexample :
    is_in_use_by_portals_targets authDbEx 5 = true ∧
    (authDbEx.creds.filter (fun c => c.tag == (5 : Int) && c.id != 1)).isEmpty = false ∧
    auth_do_delete authDbEx 1 = Except.ok ⟨[⟨2, 5⟩], [⟨1, some 5⟩], []⟩ := by
  refine ⟨rfl, rfl, rfl⟩

/-- C8 (amended): deleting an AuthCredential, or changing its tag on update,
    is blocked with an in-use error iff no other credential shares its
    (old) tag AND portals or target-groups still reference that tag (for an
    update, additionally only when the tag actually changes); whenever the
    guard does not block, the delete or tag-change proceeds. -/
theorem c8_auth_guard (db : AuthDB) (i : Nat) (newTag : Int) (config : AuthCred)
    (hfind : db.creds.find? (fun c => c.id == i) = some config) :
    (auth_do_delete db i = Except.error AuthErr.inUse ↔
      ((db.creds.filter (fun c => c.tag == config.tag && c.id != i)).isEmpty = true ∧
        is_in_use_by_portals_targets db config.tag = true)) ∧
    (¬ ((db.creds.filter (fun c => c.tag == config.tag && c.id != i)).isEmpty = true ∧
          is_in_use_by_portals_targets db config.tag = true) →
      auth_do_delete db i =
        Except.ok {db with creds := db.creds.filter (fun c => c.id != i)}) ∧
    (auth_do_update_tag db i newTag = Except.error AuthErr.inUse ↔
      (newTag ≠ config.tag ∧
        (db.creds.filter (fun c => c.tag == config.tag && c.id != i)).isEmpty = true ∧
        is_in_use_by_portals_targets db config.tag = true)) ∧
    (¬ (newTag ≠ config.tag ∧
          (db.creds.filter (fun c => c.tag == config.tag && c.id != i)).isEmpty = true ∧
          is_in_use_by_portals_targets db config.tag = true) →
      auth_do_update_tag db i newTag =
        Except.ok {db with creds := db.creds.map (fun c => if c.id == i then {c with tag := newTag} else c)}) := by
  refine ⟨?_, ?_, ?_, ?_⟩
  · constructor
    · intro h
      by_cases h1 : (db.creds.filter (fun c => c.tag == config.tag && c.id != i)).isEmpty = true
      · by_cases h2 : is_in_use_by_portals_targets db config.tag = true
        · exact ⟨h1, h2⟩
        · simp [auth_do_delete, hfind, h1, h2] at h
      · simp [auth_do_delete, hfind, h1] at h
    · rintro ⟨h1, h2⟩
      simp [auth_do_delete, hfind, h1, h2]
  · intro hn
    by_cases h1 : (db.creds.filter (fun c => c.tag == config.tag && c.id != i)).isEmpty = true
    · have h2 : is_in_use_by_portals_targets db config.tag = false := by
        by_contra hc
        exact hn ⟨h1, by simpa using hc⟩
      simp [auth_do_delete, hfind, h1, h2]
    · simp [auth_do_delete, hfind, h1]
  · constructor
    · intro h
      by_cases hcond : (newTag != config.tag &&
          (db.creds.filter (fun c => c.tag == config.tag && c.id != i)).isEmpty &&
          is_in_use_by_portals_targets db config.tag) = true
      · have := hcond
        simp only [Bool.and_eq_true, bne_iff_ne, ne_eq] at this
        exact ⟨this.1.1, this.1.2, this.2⟩
      · simp only [auth_do_update_tag, hfind] at h
        rw [if_neg hcond] at h
        cases h
    · rintro ⟨h1, h2, h3⟩
      simp [auth_do_update_tag, hfind, h1, h2, h3]
  · intro hn
    have hcond : ¬ (newTag != config.tag &&
        (db.creds.filter (fun c => c.tag == config.tag && c.id != i)).isEmpty &&
        is_in_use_by_portals_targets db config.tag) = true := by
      intro hc
      simp only [Bool.and_eq_true, bne_iff_ne, ne_eq] at hc
      exact hn ⟨hc.1.1, hc.1.2, hc.2⟩
    simp only [auth_do_update_tag, hfind]
    rw [if_neg hcond]

/-- Witness for C8: a lone referenced credential is blocked from deletion,
    and an unreferenced one is deleted. -/
theorem c8_auth_guard_witness :
    (auth_do_delete ⟨[⟨1, 5⟩], [⟨1, some 5⟩], []⟩ 1 = Except.error AuthErr.inUse ↔
      (((⟨[⟨1, 5⟩], [⟨1, some 5⟩], []⟩ : AuthDB).creds.filter
          (fun c => c.tag == (⟨1, 5⟩ : AuthCred).tag && c.id != 1)).isEmpty = true ∧
        is_in_use_by_portals_targets ⟨[⟨1, 5⟩], [⟨1, some 5⟩], []⟩
          (⟨1, 5⟩ : AuthCred).tag = true)) := by
  exact (c8_auth_guard ⟨[⟨1, 5⟩], [⟨1, some 5⟩], []⟩ 1 7 ⟨1, 5⟩ rfl).1

/-! ### Target group validation

    `iSCSITargetService.__validate`, lines 1220-1249: the per-group loop
    collects portal-duplicate/existence errors, initiator-existence errors
    and the authmethod/auth checks into field-scoped validation errors.
    `db_portals`/`db_initiators` are the id lists the two preceding
    datastore queries return; `auths` is the credential table behind
    `iscsi.auth.query`.  Python truthiness is preserved: `not group['auth']`
    is true both for `None` and for `0` (`optFalsy`), and
    `not auth[0]['peeruser']` is true for the empty string. -/

structure TargetAuthRow where
  id : Nat
  tag : Int
  peeruser : String
  deriving DecidableEq

structure TargetGroup where
  portal : Int
  initiator : Option Int
  authmethod : String
  auth : Option Int
  deriving DecidableEq

def optFalsy : Option Int → Bool
  | none => true
  | some v => v == 0

structure VError where
  field : String
  msg : String
  deriving DecidableEq

def validate_groups_loop (db_portals db_initiators : List Int)
    (auths : List TargetAuthRow) (schema : String) :
    List TargetGroup → Nat → List Int → List VError
  | [], _, _ => []
  | g :: rest, i, seen =>
    let base := schema ++ ".groups." ++ toString i
    let portalErrs : List VError :=
      if g.portal ∈ seen then
        [⟨base ++ ".portal", "Portal cannot be duplicated on a target"⟩]
      else if g.portal ∉ db_portals then
        [⟨base ++ ".portal", "Portal not found in database"⟩]
      else []
    let seen' : List Int :=
      if g.portal ∈ seen ∨ g.portal ∉ db_portals then seen else seen ++ [g.portal]
    let initiatorErrs : List VError :=
      match g.initiator with
      | none => []
      | some v =>
        if v != 0 && decide (v ∉ db_initiators) then
          [⟨base ++ ".initiator", "Initiator not found in database"⟩]
        else []
    let authErrs : List VError :=
      if optFalsy g.auth && (g.authmethod == "CHAP" || g.authmethod == "CHAP_MUTUAL") then
        [⟨base ++ ".auth", "Authentication group is required for CHAP and CHAP Mutual"⟩]
      else if !(optFalsy g.auth) && g.authmethod == "CHAP_MUTUAL" then
        match auths.find? (fun a => some a.tag == g.auth) with
        | none => [⟨base ++ ".auth", "Authentication group not found"⟩]
        | some a =>
          if a.peeruser == "" then
            [⟨base ++ ".auth", "Authentication group does not support CHAP Mutual"⟩]
          else []
      else []
    portalErrs ++ initiatorErrs ++ authErrs ++
      validate_groups_loop db_portals db_initiators auths schema rest (i + 1) seen'

def validate_groups (db_portals db_initiators : List Int)
    (auths : List TargetAuthRow) (schema : String)
    (groups : List TargetGroup) : List VError :=
  validate_groups_loop db_portals db_initiators auths schema groups 0 []

/-- C9 counterexample: a group with `authmethod = CHAP_MUTUAL` and the
    non-null auth reference `0`, where a credential with tag 0 exists and
    carries a peer-user: the claim predicts no error on the group's `auth`
    field, but the code treats `0` as falsy (`not group['auth']`) and emits
    the required-auth error. -/
theorem c9_counterexample :
    validate_groups [1] [] [⟨1, 0, "peer"⟩] "iscsi_target_create"
        [⟨1, none, "CHAP_MUTUAL", some 0⟩] =
      [⟨"iscsi_target_create.groups.0.auth",
        "Authentication group is required for CHAP and CHAP Mutual"⟩] ∧
    ([⟨1, 0, "peer"⟩] : List TargetAuthRow).find?
        (fun a => some a.tag == (some 0 : Option Int)) = some ⟨1, 0, "peer"⟩ ∧
    ("peer" : String) ≠ "" := by
  refine ⟨by decide, by decide, by decide⟩

/-- C9 (amended): for a group whose portal is valid and which names no
    initiator, an auth reference that is null or 0 together with authmethod
    CHAP or CHAP_MUTUAL yields exactly the required-auth error on the
    group's `auth` field; a non-null non-zero auth reference with
    CHAP_MUTUAL yields the not-found error when no credential carries that
    tag, the no-mutual-support error when the first such credential has an
    empty peer-user, and no error when it has a non-empty peer-user. -/
theorem c9_group_auth_validation (db_portals db_initiators : List Int)
    (auths : List TargetAuthRow) (schema : String) (g : TargetGroup)
    (hp : g.portal ∈ db_portals) (hi : g.initiator = none) :
    (optFalsy g.auth = true →
      (g.authmethod = "CHAP" ∨ g.authmethod = "CHAP_MUTUAL") →
      validate_groups db_portals db_initiators auths schema [g] =
        [⟨schema ++ ".groups." ++ toString 0 ++ ".auth",
          "Authentication group is required for CHAP and CHAP Mutual"⟩]) ∧
    (optFalsy g.auth = false → g.authmethod = "CHAP_MUTUAL" →
      (auths.find? (fun a => some a.tag == g.auth) = none →
        validate_groups db_portals db_initiators auths schema [g] =
          [⟨schema ++ ".groups." ++ toString 0 ++ ".auth",
            "Authentication group not found"⟩]) ∧
      (∀ a, auths.find? (fun a' => some a'.tag == g.auth) = some a →
        (a.peeruser = "" →
          validate_groups db_portals db_initiators auths schema [g] =
            [⟨schema ++ ".groups." ++ toString 0 ++ ".auth",
              "Authentication group does not support CHAP Mutual"⟩]) ∧
        (a.peeruser ≠ "" →
          validate_groups db_portals db_initiators auths schema [g] = []))) := by
  have hbase : validate_groups db_portals db_initiators auths schema [g] =
      (if optFalsy g.auth &&
          (g.authmethod == "CHAP" || g.authmethod == "CHAP_MUTUAL") then
        [⟨schema ++ ".groups." ++ toString 0 ++ ".auth",
          "Authentication group is required for CHAP and CHAP Mutual"⟩]
      else if !(optFalsy g.auth) && g.authmethod == "CHAP_MUTUAL" then
        match auths.find? (fun a => some a.tag == g.auth) with
        | none =>
          [⟨schema ++ ".groups." ++ toString 0 ++ ".auth",
            "Authentication group not found"⟩]
        | some a =>
          if a.peeruser == "" then
            [⟨schema ++ ".groups." ++ toString 0 ++ ".auth",
              "Authentication group does not support CHAP Mutual"⟩]
          else []
      else []) := by
    rw [validate_groups, validate_groups_loop]
    rw [if_neg (List.not_mem_nil g.portal), if_neg (by simpa using hp), hi]
    simp only [validate_groups_loop, List.nil_append, List.append_nil]
  constructor
  · intro hfalsy hmethod
    rw [hbase]
    rcases hmethod with hm | hm <;> simp [hfalsy, hm]
  · intro hfalsy hmethod
    refine ⟨?_, fun a hsome => ⟨?_, ?_⟩⟩
    · intro hnone
      rw [hbase]
      simp [hfalsy, hmethod, hnone]
    · intro hpe
      rw [hbase]
      simp [hfalsy, hmethod, hsome, hpe]
    · intro hpe
      rw [hbase]
      simp [hfalsy, hmethod, hsome, hpe]

/-- Witness for C9 at a concrete group (valid portal, CHAP, null auth):
    exactly the required-auth error is produced. -/
theorem c9_group_auth_validation_witness :
    validate_groups [1] [] [⟨1, 3, "peer"⟩] "iscsi_target_create"
        [⟨1, none, "CHAP", none⟩] =
      [⟨"iscsi_target_create.groups.0.auth",
        "Authentication group is required for CHAP and CHAP Mutual"⟩] :=
  ((c9_group_auth_validation [1] [] [⟨1, 3, "peer"⟩] "iscsi_target_create"
      ⟨1, none, "CHAP", none⟩ (by decide) rfl).1 rfl (Or.inl rfl)).trans (by decide)

/-! ### Extent deletion and orphan-target cleanup

    `iSCSITargetExtentService.do_delete` (lines 630-663) deletes every
    Association of the extent (via `iscsi.targetextent.delete`) and then the
    extent row itself — it never touches the Target table.
    `ISCSIFSAttachmentDelegate.delete` (lines 1538-1553) deletes the
    Associations and extent rows of its attachments, then deletes (with
    `force=True`, via `iscsi.target.delete`, lines 1290-1323) every target
    that was referenced by a deleted Association and is left with no
    Association at all.  `active` is the set of target ids that currently
    have live sessions (`iscsi.target.active_sessions_for_targets`); the
    `remove`-file branch and the external `scstadmin` call are out of scope
    of the datastore model. -/

structure TargetRow where
  id : Nat
  deriving DecidableEq

structure ExtentRow where
  id : Nat
  deriving DecidableEq

structure AssocRow where
  id : Nat
  target : Nat
  extent : Nat
  deriving DecidableEq

structure GroupRow where
  id : Nat
  target : Nat
  deriving DecidableEq

structure TopoDB where
  targets : List TargetRow
  extents : List ExtentRow
  assocs : List AssocRow
  groups : List GroupRow
  deriving DecidableEq

/-- `iSCSITargetToExtentService.do_delete(id, force)` (lines 1442-1463). -/
def targetextent_do_delete (active : List Nat) (force : Bool) (db : TopoDB)
    (i : Nat) : Except Unit TopoDB :=
  match db.assocs.find? (fun x => x.id == i) with
  | none => Except.error ()
  | some a =>
    if active.contains a.target && !force then Except.error ()
    else Except.ok {db with assocs := db.assocs.filter (fun x => x.id != i)}

/-- The `for target_to_extent in target_to_extents:` deletion loop. -/
def deleteAssocsLoop (active : List Nat) (force : Bool) :
    TopoDB → List Nat → Except Unit TopoDB
  | db, [] => Except.ok db
  | db, i :: rest =>
    match targetextent_do_delete active force db i with
    | Except.error e => Except.error e
    | Except.ok db1 => deleteAssocsLoop active force db1 rest

/-- `iSCSITargetExtentService.do_delete(id, remove=False, force)`. -/
def extent_do_delete (active : List Nat) (db : TopoDB) (i : Nat)
    (force : Bool) : Except Unit TopoDB :=
  match db.extents.find? (fun e => e.id == i) with
  | none => Except.error ()
  | some _ =>
    let t2es := db.assocs.filter (fun x => x.extent == i)
    let sessions := (t2es.map (fun x => x.target)).filter (fun t => active.contains t)
    if !sessions.isEmpty && !force then Except.error ()
    else
      match deleteAssocsLoop active force db (t2es.map (fun x => x.id)) with
      | Except.error e => Except.error e
      | Except.ok db1 =>
        Except.ok {db1 with extents := db1.extents.filter (fun e => e.id != i)}

/-- `iSCSITargetService.do_delete(id, force)` (lines 1290-1323). -/
def target_do_delete (active : List Nat) (force : Bool) (db : TopoDB)
    (i : Nat) : Except Unit TopoDB :=
  match db.targets.find? (fun t => t.id == i) with
  | none => Except.error ()
  | some _ =>
    if active.contains i && !force then Except.error ()
    else
      match deleteAssocsLoop active force db
          ((db.assocs.filter (fun x => x.target == i)).map (fun x => x.id)) with
      | Except.error e => Except.error e
      | Except.ok db1 =>
        Except.ok {db1 with
          groups := db1.groups.filter (fun g => g.target != i),
          targets := db1.targets.filter (fun t => t.id != i)}

/-- One iteration of the delegate's `for attachment in attachments:` loop:
    delete the attachment's Association rows (collecting their target ids —
    a Python set; Associations of one extent have pairwise distinct targets,
    so only cross-iteration duplicates need filtering) and its extent row. -/
def attachment_delete_one (st : TopoDB × List Nat) (eid : Nat) : TopoDB × List Nat :=
  let d := st.1
  let orph := st.2
  let tes := d.assocs.filter (fun x => x.extent == eid)
  let orph1 := orph ++ ((tes.map (fun x => x.target)).filter (fun t => !(orph.contains t)))
  ({d with
      assocs := d.assocs.filter (fun x => x.extent != eid),
      extents := d.extents.filter (fun e => e.id != eid)}, orph1)

def target_delete_loop (active : List Nat) : TopoDB → List Nat → Except Unit TopoDB
  | db, [] => Except.ok db
  | db, t :: ts =>
    match target_do_delete active true db t with
    | Except.error e => Except.error e
    | Except.ok db1 => target_delete_loop active db1 ts

/-- `ISCSIFSAttachmentDelegate.delete(attachments)` (lines 1538-1553):
    phase one removes the Associations and extent rows; orphan candidates
    that still have some Association are then discarded; the remaining
    orphan targets are deleted with `force=True`. -/
def attachment_delete (active : List Nat) (db : TopoDB) (ids : List Nat) :
    Except Unit TopoDB :=
  let st := ids.foldl attachment_delete_one (db, [])
  let orph2 := st.2.filter (fun t => (st.1.assocs.filter (fun x => x.target == t)).isEmpty)
  target_delete_loop active st.1 orph2

/-- One target, one extent, one Association binding them, no sessions. -/
def topoEx : TopoDB := ⟨[⟨1⟩], [⟨1⟩], [⟨1, 1, 1⟩], []⟩

/-- C3 counterexample: deleting the sole backing Extent of target 1 through
    `iscsi.extent.do_delete` removes the Association and the extent row but
    leaves the now-empty Target in place, contradicting the claim that this
    operation removes the orphaned Target. -/
theorem c3_counterexample :
    extent_do_delete [] topoEx 1 false = Except.ok ⟨[⟨1⟩], [], [], []⟩ ∧
    (⟨[⟨1⟩], [], [], []⟩ : TopoDB).targets ≠ [] :=
  ⟨rfl, by decide⟩

/-- C3 (amended): for an Extent that is the sole backing store of a Target
    (one Association binds them and it is the Target's only Association),
    the extent delete operation removes the Association and the extent row
    but leaves the Target untouched; the orphaned Target is removed only by
    the filesystem-attachment delegate's delete path, which also removes the
    Association and extent row. -/
theorem c3_extent_delete_cascade (db : TopoDB) (eid tid : Nat)
    (a : AssocRow) (ex : ExtentRow) (tg : TargetRow)
    (h1 : db.assocs.filter (fun x => x.extent == eid) = [a])
    (h2 : a.target = tid)
    (h3 : db.assocs.filter (fun x => x.target == tid) = [a])
    (h7 : db.assocs.find? (fun x => x.id == a.id) = some a)
    (he : db.extents.find? (fun e => e.id == eid) = some ex)
    (ht : db.targets.find? (fun t => t.id == tid) = some tg) :
    extent_do_delete [] db eid false =
      Except.ok ⟨db.targets, db.extents.filter (fun e => e.id != eid),
        db.assocs.filter (fun x => x.id != a.id), db.groups⟩ ∧
    attachment_delete [] db [eid] =
      Except.ok ⟨db.targets.filter (fun t => t.id != tid),
        db.extents.filter (fun e => e.id != eid),
        db.assocs.filter (fun x => x.extent != eid),
        db.groups.filter (fun g => g.target != tid)⟩ := by
  have ha_ext : a.extent == eid := by
    have : a ∈ db.assocs.filter (fun x => x.extent == eid) := by
      rw [h1]; exact List.mem_singleton.mpr rfl
    exact (List.mem_filter.mp this).2
  have hkey : (db.assocs.filter (fun x => x.extent != eid)).filter
      (fun x => x.target == tid) = [] := by
    rw [List.filter_filter]
    apply List.filter_eq_nil.mpr
    intro x hx
    intro hcontra
    simp only [Bool.and_eq_true] at hcontra
    rcases hcontra with ⟨hxt, hxe⟩
    have hxmem : x ∈ db.assocs.filter (fun y => y.target == tid) :=
      List.mem_filter.mpr ⟨hx, hxt⟩
    rw [h3] at hxmem
    rcases List.mem_singleton.mp hxmem with rfl
    have hx_eq : x.extent = eid := by simpa using ha_ext
    rw [hx_eq] at hxe
    simp at hxe
  constructor
  · simp only [extent_do_delete, he, h1, List.map_cons, List.map_nil,
      List.contains_nil, List.filter_cons, List.filter_nil]
    simp only [Bool.false_eq_true, if_false, List.isEmpty_nil, Bool.not_true,
      Bool.false_and, deleteAssocsLoop, targetextent_do_delete, h7,
      List.contains_nil, Bool.false_and, if_neg]
  · simp only [attachment_delete, List.foldl_cons, List.foldl_nil,
      attachment_delete_one, h1, List.map_cons, List.map_nil,
      List.contains_nil, Bool.not_false, List.filter_cons, List.filter_nil]
    simp only [if_true, List.nil_append, hkey, List.isEmpty_nil,
      List.filter_cons, List.filter_nil]
    simp only [h2, target_delete_loop, target_do_delete, ht, List.contains_nil,
      Bool.not_true, Bool.false_and, hkey, List.map_nil, deleteAssocsLoop]
    simp

/-- Witness for C3 (amended) at the concrete one-target/one-extent topology. -/
theorem c3_extent_delete_cascade_witness :
    (extent_do_delete [] topoEx 1 false =
      Except.ok ⟨topoEx.targets, topoEx.extents.filter (fun e => e.id != 1),
        topoEx.assocs.filter (fun x => x.id != (⟨1, 1, 1⟩ : AssocRow).id),
        topoEx.groups⟩ ∧
    attachment_delete [] topoEx [1] =
      Except.ok ⟨topoEx.targets.filter (fun t => t.id != 1),
        topoEx.extents.filter (fun e => e.id != 1),
        topoEx.assocs.filter (fun x => x.extent != 1),
        topoEx.groups.filter (fun g => g.target != 1)⟩) :=
  c3_extent_delete_cascade topoEx 1 1 ⟨1, 1, 1⟩ ⟨1⟩ ⟨1⟩ rfl rfl rfl rfl rfl rfl

/-! ### Service-reload notification traces

    For every CRUD endpoint of the six entity services we record, in source
    order, the datastore mutation calls and `_service_change('iscsitarget',
    'reload')` calls issued on the successful path (read-only
    `datastore.query`/`get_instance` calls, file operations and the external
    `scstadmin` invocation carry no topology mutation and are elided).
    Counts of loop-issued calls (listen rows, group rows, portals to
    renumber, associations to cascade) are parameters.

    Sources: portal lines 163-285, auth-credential lines 345-420, extent
    lines 556-663, initiator lines 932-990, target lines 1096-1323,
    association lines 1383-1463.  Note that `iSCSITargetExtentService.
    do_create` (lines 556-584) returns directly after `datastore.insert`,
    and `iSCSITargetAuthCredentialService.do_delete` (lines 407-420) returns
    the `datastore.delete` result directly: neither issues a reload. -/

inductive Call where
  | dsInsert (table : String)
  | dsUpdate (table : String)
  | dsDelete (table : String)
  | serviceReload
  deriving DecidableEq

def portal_create_calls (nListen : Nat) : List Call :=
  [Call.dsInsert "services.iscsitargetportal"] ++
    List.replicate nListen (Call.dsInsert "services.iscsitargetportalip") ++
    [Call.serviceReload]

def portal_update_calls (nIns nDel : Nat) : List Call :=
  List.replicate nIns (Call.dsInsert "services.iscsitargetportalip") ++
    List.replicate nDel (Call.dsDelete "services.iscsitargetportalip") ++
    [Call.dsUpdate "services.iscsitargetportal", Call.serviceReload]

def portal_delete_calls (nRemaining : Nat) : List Call :=
  [Call.dsDelete "services.iscsitargetgroups",
   Call.dsDelete "services.iscsitargetportalip",
   Call.dsDelete "services.iscsitargetportal"] ++
    List.replicate nRemaining (Call.dsUpdate "services.iscsitargetportal") ++
    [Call.serviceReload]

def auth_create_calls : List Call :=
  [Call.dsInsert "services.iscsitargetauthcredential", Call.serviceReload]

def auth_update_calls : List Call :=
  [Call.dsUpdate "services.iscsitargetauthcredential", Call.serviceReload]

def auth_delete_calls : List Call :=
  [Call.dsDelete "services.iscsitargetauthcredential"]

def extent_create_calls : List Call :=
  [Call.dsInsert "services.iscsitargetextent"]

def extent_update_calls : List Call :=
  [Call.dsUpdate "services.iscsitargetextent", Call.serviceReload]

def targetextent_delete_calls : List Call :=
  [Call.dsDelete "services.iscsitargettoextent", Call.serviceReload]

def extent_delete_calls (nAssoc : Nat) : List Call :=
  (List.replicate nAssoc targetextent_delete_calls).join ++
    [Call.dsDelete "services.iscsitargetextent", Call.serviceReload]

def initiator_create_calls : List Call :=
  [Call.dsInsert "services.iscsitargetauthorizedinitiator", Call.serviceReload]

def initiator_update_calls : List Call :=
  [Call.dsUpdate "services.iscsitargetauthorizedinitiator", Call.serviceReload]

def initiator_delete_calls : List Call :=
  [Call.dsDelete "services.iscsitargetauthorizedinitiator", Call.serviceReload]

def target_create_calls (nGroups : Nat) : List Call :=
  [Call.dsInsert "services.iscsitarget"] ++
    List.replicate nGroups (Call.dsInsert "services.iscsitargetgroups") ++
    [Call.serviceReload]

def target_update_calls (nDel nIns : Nat) : List Call :=
  [Call.dsUpdate "services.iscsitarget"] ++
    List.replicate nDel (Call.dsDelete "services.iscsitargetgroups") ++
    List.replicate nIns (Call.dsInsert "services.iscsitargetgroups") ++
    [Call.serviceReload]

def target_delete_calls (nAssoc : Nat) : List Call :=
  (List.replicate nAssoc targetextent_delete_calls).join ++
    [Call.dsDelete "services.iscsitargetgroups",
     Call.dsDelete "services.iscsitarget", Call.serviceReload]

def targetextent_create_calls : List Call :=
  [Call.dsInsert "services.iscsitargettoextent", Call.serviceReload]

def targetextent_update_calls : List Call :=
  [Call.dsUpdate "services.iscsitargettoextent", Call.serviceReload]

/-- C4: sixteen of the eighteen mutation endpoints finish with the
    service-reload notification, but `iscsi.extent.do_create` and
    `iscsi.auth.do_delete` never notify the service at all, so the claim
    that every successful mutation — in particular a successful Extent
    create — ends with a reload fails on the code. -/
theorem c4_reload_notification (nListen nIns nDel nRemaining nAssoc nGroups : Nat) :
    Call.serviceReload ∉ extent_create_calls ∧
    Call.serviceReload ∉ auth_delete_calls ∧
    (portal_create_calls nListen).getLast? = some Call.serviceReload ∧
    (portal_update_calls nIns nDel).getLast? = some Call.serviceReload ∧
    (portal_delete_calls nRemaining).getLast? = some Call.serviceReload ∧
    auth_create_calls.getLast? = some Call.serviceReload ∧
    auth_update_calls.getLast? = some Call.serviceReload ∧
    extent_update_calls.getLast? = some Call.serviceReload ∧
    (extent_delete_calls nAssoc).getLast? = some Call.serviceReload ∧
    initiator_create_calls.getLast? = some Call.serviceReload ∧
    initiator_update_calls.getLast? = some Call.serviceReload ∧
    initiator_delete_calls.getLast? = some Call.serviceReload ∧
    (target_create_calls nGroups).getLast? = some Call.serviceReload ∧
    (target_update_calls nDel nIns).getLast? = some Call.serviceReload ∧
    (target_delete_calls nAssoc).getLast? = some Call.serviceReload ∧
    targetextent_create_calls.getLast? = some Call.serviceReload ∧
    targetextent_update_calls.getLast? = some Call.serviceReload ∧
    targetextent_delete_calls.getLast? = some Call.serviceReload := by
  refine ⟨by decide, by decide, ?_, ?_, ?_, by decide, by decide, by decide, ?_,
    by decide, by decide, by decide, ?_, ?_, ?_, by decide, by decide, by decide⟩ <;>
    simp only [portal_create_calls, portal_update_calls, portal_delete_calls,
      extent_delete_calls, target_create_calls, target_update_calls,
      target_delete_calls, List.getLast?_append] <;> rfl

end Iscsi
